import Mathlib

/-!
Verification of the MMM-Reddit node helper (src/node_helper.js).

The JavaScript helper is shallowly embedded: every function of the helper
that the claims touch is translated to an executable Lean definition.
JavaScript runtime exceptions (TypeError on reading a property of
`undefined`) are modelled with `Except Unit`: `.error ()` marks a thrown
exception, `.ok v` a normal return value.  JavaScript `null` and `undefined`
results are modelled with `Option`.
-/

/-- Decidable equality for `Except`, so that concrete runs of the embedded
functions can be checked by `decide`. -/
instance {ε α : Type} [DecidableEq ε] [DecidableEq α] :
    DecidableEq (Except ε α) := fun x y =>
  match x, y with
  | .ok a, .ok b =>
    if h : a = b then isTrue (by rw [h])
    else isFalse (fun he => h (Except.ok.inj he))
  | .error a, .error b =>
    if h : a = b then isTrue (by rw [h])
    else isFalse (fun he => h (Except.error.inj he))
  | .ok _, .error _ => isFalse (fun he => Except.noConfusion he)
  | .error _, .ok _ => isFalse (fun he => Except.noConfusion he)

/-- One image rendition: `url`, `width`, `height` (node_helper.js data). -/
structure ImageVariant where
  url : String
  width : Nat
  height : Nat
deriving DecidableEq, Repr

/-- One entry of `preview.images`.  The `source` field is optional because
`skipNonImagePost` tests `hasOwnProperty('source')`. -/
structure ImageVariantSet where
  source : Option ImageVariant
  resolutions : List ImageVariant
deriving DecidableEq, Repr

/-- The `preview` object of a post.  `images` is optional because
`skipNonImagePost` tests `preview.hasOwnProperty('images')`. -/
structure PreviewData where
  images : Option (List ImageVariantSet)
deriving DecidableEq, Repr

/-- Whether the character list contains the substring "http"
(JS `thumbnail.indexOf('http') !== -1`). -/
def containsHttpList : List Char → Bool
  | 'h' :: 't' :: 't' :: 'p' :: _ => true
  | _ :: rest => containsHttpList rest
  | [] => false

/-- JS `thumbnail.indexOf('http') !== -1` on a string. -/
def containsHttp (s : String) : Bool :=
  containsHttpList s.toList

/-- Whether the character list starts with "http"
(JS `thumbnail.startsWith('http')`). -/
def startsWithHttpList : List Char → Bool
  | 'h' :: 't' :: 't' :: 'p' :: _ => true
  | _ => false

/-- JS `thumbnail.startsWith('http')` on a string. -/
def startsWithHttp (s : String) : Bool :=
  startsWithHttpList s.toList

/-- The helper property `qualityIndex`: list of image qualities in
ascending order. -/
def qualityIndex : List String :=
  ["low", "mid", "mid-high", "high"]

/-- JS `Array.prototype.indexOf`: index of the first occurrence, `-1` when
the element is absent. -/
def jsIndexOfAux : List String → String → Int
  | [], _ => -1
  | x :: xs, s =>
    if x = s then 0
    else
      let r := jsIndexOfAux xs s
      if r = -1 then -1 else r + 1

/-- JS array indexing `l[i]`: `none` (undefined) when `i` is negative or
past the end. -/
def jsListGet (l : List ImageVariant) (i : Int) : Option ImageVariant :=
  if i < 0 then none else l.get? i.toNat

/-- The image index computed by `getImageUrl` from the quality rank `r`
(a JS number, `-1` for an unknown quality) and the candidate count `n`:
`Math.round(r/4 * n)` when `n > 5`, else `Math.floor(r/4 * n)`.  Both are
floor divisions (`Math.round x = Math.floor (x + 1/2)` and the products
`r/4 * n` are exact), hence `Int.fdiv`. -/
def computeImageIndex (r : Int) (n : Nat) : Int :=
  if 5 < n then (r * n + 2).fdiv 4 else (r * n).fdiv 4

/-- `skipNonImagePost(preview, thumbnail)` (node_helper.js lines 205-223).
Returns `.error ()` for the JS TypeError thrown by
`preview.images[0].hasOwnProperty('source')` when `images` is empty. -/
def skipNonImagePost (preview : Option PreviewData) (thumbnail : String) :
    Except Unit Bool :=
  let nonImageThumbnail := !(containsHttp thumbnail)
  match preview with
  | none => .ok true
  | some p =>
    if nonImageThumbnail then .ok true
    else
      match p.images with
      | none => .ok true
      | some [] => .error ()
      | some (firstImage :: _) => .ok firstImage.source.isNone

/-- `getAllImages(imageObj)` (node_helper.js lines 231-244): pop the last
entry of `resolutions`, compare its dimensions with `source`, push it back,
and additionally push `source` when the dimensions differ.  `.error ()`
models the TypeError thrown when `resolutions` is empty (`pop` returns
`undefined`) or `source` is absent. -/
def getAllImages (imageObj : ImageVariantSet) : Except Unit (List ImageVariant) :=
  match imageObj.resolutions.getLast?, imageObj.source with
  | some lastImage, some src =>
    if lastImage.width = src.width ∧ lastImage.height = src.height then
      .ok (imageObj.resolutions.dropLast ++ [lastImage])
    else
      .ok (imageObj.resolutions.dropLast ++ [lastImage, src])
  | _, _ => .error ()

/-- The state of the `resolutions` array after `getAllImages` ran: the JS
function operates on the array object itself (`imageSet` aliases
`imageObj.resolutions`), so `pop`, `push` and the conditional
`push(source)` all act on the caller's array.  On the crash paths the
array keeps the shape it had when the TypeError was thrown. -/
def getAllImagesState (imageObj : ImageVariantSet) : List ImageVariant :=
  match imageObj.resolutions.getLast?, imageObj.source with
  | some lastImage, some src =>
    if lastImage.width = src.width ∧ lastImage.height = src.height then
      imageObj.resolutions.dropLast ++ [lastImage]
    else
      imageObj.resolutions.dropLast ++ [lastImage, src]
  | some _, none => imageObj.resolutions.dropLast
  | none, _ => imageObj.resolutions

/-- `getImageUrl(preview, thumbnail)` (node_helper.js lines 178-196), with
the configured `imageQuality` passed explicitly.  `.ok none` is the JS
`return null`; `.error ()` is a thrown TypeError (from `getAllImages`, or
from `allPostImages[imageIndex].url` when the index is out of range). -/
def getImageUrl (quality : String) (preview : Option PreviewData)
    (thumbnail : String) : Except Unit (Option String) :=
  match skipNonImagePost preview thumbnail with
  | .error e => .error e
  | .ok true => .ok none
  | .ok false =>
    match preview with
    | none => .error ()
    | some p =>
      match p.images with
      | none => .error ()
      | some [] => .error ()
      | some (firstImage :: _) =>
        match getAllImages firstImage with
        | .error e => .error e
        | .ok allPostImages =>
          let idx := computeImageIndex (jsIndexOfAux qualityIndex quality)
            allPostImages.length
          match jsListGet allPostImages idx with
          | some v => .ok (some v.url)
          | none => .error ()

/-- The preview structure after `getImageUrl` ran: on the non-skip path
the first variant set's `resolutions` array has been mutated in place by
`getAllImages`; on every other path the preview is untouched. -/
def previewAfterGet (preview : Option PreviewData) (thumbnail : String) :
    Option PreviewData :=
  match skipNonImagePost preview thumbnail with
  | .ok false =>
    match preview with
    | some p =>
      match p.images with
      | some (firstImage :: rest) =>
        some ⟨some ({ firstImage with resolutions := getAllImagesState firstImage } :: rest)⟩
      | _ => preview
    | none => preview
  | _ => preview

/-- One title replacement rule of `config.titleReplacements`.
`caseSensitive` is optional: `formatTitle` defaults it to `true` via the
`typeof modifier.caseSensitive !== 'undefined'` test. -/
structure TitleRule where
  toReplace : String
  replacement : String
  caseSensitive : Option Bool
deriving DecidableEq, Repr

/-- Character comparison used by the regex engine for the rule: exact, or
lowercased when the `i` flag is set. -/
def chEq (ins : Bool) (a b : Char) : Bool :=
  if ins then a.toLower == b.toLower else a == b

/-- Whether `pat` matches at the start of `s`, under flag `ins` for
case-insensitivity. -/
def matchPrefixCI (ins : Bool) : List Char → List Char → Bool
  | [], _ => true
  | _ :: _, [] => false
  | p :: ps, c :: cs => chEq ins p c && matchPrefixCI ins ps cs

/-- Fuel-indexed worker for the global replacement.  Every recursive call
shortens the text by at least one character, so `fuel = s.length` steps
always suffice and the `0` row is never reached on those calls; the fuel
only makes the recursion structural. -/
def replaceAllFuel (ins : Bool) (pat rep : List Char) :
    Nat → List Char → List Char
  | _, [] => []
  | 0, s => s
  | fuel + 1, c :: rest =>
    match pat with
    | [] => c :: rest
    | p :: ps =>
      if matchPrefixCI ins (p :: ps) (c :: rest) then
        rep ++ replaceAllFuel ins pat rep fuel (rest.drop ps.length)
      else
        c :: replaceAllFuel ins pat rep fuel rest

/-- JS `String.prototype.replace` with a `g`-flagged pattern: replace every
non-overlapping leftmost occurrence of `pat` by `rep`, scanning left to
right and never rescanning a freshly inserted replacement.  The claims use
the rules with literal patterns, so the pattern is a literal string here. -/
def replaceAllAux (ins : Bool) (pat rep : List Char) (s : List Char) :
    List Char :=
  replaceAllFuel ins pat rep s.length s

/-- One iteration of the `replacements.forEach` loop of `formatTitle`
(node_helper.js lines 151-158): build the `g`(`i`) regex from the rule and
replace globally in the current title. -/
def applyRule (title : String) (modifier : TitleRule) : String :=
  let caseSensitive := modifier.caseSensitive.getD true
  let ins := !caseSensitive
  String.mk (replaceAllAux ins modifier.toReplace.toList
    modifier.replacement.toList title.toList)

/-- The whole `replacements.forEach` loop: a left fold of `applyRule` over
the rule list, threading the current title. -/
def applyRules (replacements : List TitleRule) (title : String) : String :=
  replacements.foldl applyRule title

/-- JS `String.prototype.trim`: drop whitespace from both ends. -/
def jsTrim (s : List Char) : List Char :=
  ((s.dropWhile Char.isWhitespace).reverse.dropWhile Char.isWhitespace).reverse

/-- `formatTitle(title)` (node_helper.js lines 146-169), with the
configured `titleReplacements` and `characterLimit` passed explicitly.
`originalLength` is captured from the argument BEFORE the replacement
loop runs.  `limit = none` is the JS `null` (no limit). -/
def formatTitle (replacements : List TitleRule) (limit : Option Nat)
    (title : String) : String :=
  let originalLength := title.length
  let t := applyRules replacements title
  match limit with
  | none => t
  | some l =>
    let t2 := String.mk (jsTrim (t.toList.take l))
    if t2.length ≠ originalLength then t2 ++ "..." else t2

/-- The truncated-and-trimmed post-rule title: what `formatTitle` computes
just before deciding about the `"..."` marker. -/
def truncBase (replacements : List TitleRule) (l : Nat) (title : String) :
    String :=
  String.mk (jsTrim ((applyRules replacements title).toList.take l))

/-- A raw reddit post (`post.data` of one `data.children` entry), with the
fields node_helper.js reads. -/
structure RawPost where
  title : String
  score : Int
  thumbnail : String
  preview : Option PreviewData
  gilded : Int
  num_comments : Int
  subreddit : String
  author : String
deriving DecidableEq, Repr

/-- One output record built by the `.map` in `getData`
(node_helper.js lines 87-96). -/
structure OutputPost where
  title : String
  score : Int
  thumbnail : String
  src : Option String
  gilded : Int
  num_comments : Int
  subreddit : String
  author : String
deriving DecidableEq, Repr

/-- The per-cycle configuration fields node_helper.js reads. -/
structure Config where
  displayType : String
  imageQuality : String
  titleReplacements : List TitleRule
  characterLimit : Option Nat
deriving DecidableEq, Repr

/-- One evaluation of the `.filter` callback in `getData`
(node_helper.js lines 79-86) on one post: returns the boolean the callback
returns together with the post as left behind by the callback (the
`getImageUrl` call may have mutated `post.data.preview` in place).
`.error ()` when `getImageUrl` throws. -/
def filterStep (cfg : Config) (post : RawPost) : Except Unit (Bool × RawPost) :=
  match getImageUrl cfg.imageQuality post.preview post.thumbnail with
  | .error e => .error e
  | .ok imageSrc =>
    let hasValidThumbnail := startsWithHttp post.thumbnail
    let isImageValid := (cfg.displayType != "image") || imageSrc.isSome
    .ok (hasValidThumbnail && isImageValid,
      { post with preview := previewAfterGet post.preview post.thumbnail })

/-- One evaluation of the `.map` callback in `getData`
(node_helper.js lines 87-96) on one surviving post. -/
def mapStep (cfg : Config) (post : RawPost) : Except Unit OutputPost :=
  match getImageUrl cfg.imageQuality post.preview post.thumbnail with
  | .error e => .error e
  | .ok imageSrc =>
    .ok
      { title := formatTitle cfg.titleReplacements cfg.characterLimit post.title
        score := post.score
        thumbnail := post.thumbnail
        src := imageSrc
        gilded := post.gilded
        num_comments := post.num_comments
        subreddit := post.subreddit
        author := post.author }

/-- The `.filter` pass over `body.data.children`: posts whose callback
returned `true`, in order, each in its possibly-mutated state. -/
def runFilter (cfg : Config) : List RawPost → Except Unit (List RawPost)
  | [] => .ok []
  | p :: ps => do
    let (keep, p2) ← filterStep cfg p
    let rest ← runFilter cfg ps
    .ok (if keep then p2 :: rest else rest)

/-- The `.map` pass over the surviving posts. -/
def runMap (cfg : Config) : List RawPost → Except Unit (List OutputPost)
  | [] => .ok []
  | p :: ps => do
    let o ← mapStep cfg p
    let rest ← runMap cfg ps
    .ok (o :: rest)

/-- The `data` object of a decoded reddit response; `children` is optional
to model the `!body?.data?.children` shape test. -/
structure BodyData where
  children : Option (List RawPost)
deriving DecidableEq, Repr

/-- A decoded reddit response body. -/
structure Body where
  data : Option BodyData
deriving DecidableEq, Repr

/-- What one fetch cycle emits after a successful HTTP request: either a
`REDDIT_POSTS` payload with the post list, or a socket notification named
by the first string carrying the structured error message. -/
inductive CycleOutput where
  | posts : List OutputPost → CycleOutput
  | err : String → String → CycleOutput
deriving DecidableEq, Repr

/-- The guidance message of `getData` for a malformed feed
(node_helper.js line 74). -/
def noPostsMessage : String :=
  "No posts returned. Ensure the subreddit name is spelled correctly. Private subreddits are also inaccessible."

/-- The catch-all message of `getData` (node_helper.js line 102). -/
def fetchErrorMessage : String :=
  "An error occurred while fetching Reddit data."

/-- The body-processing part of `getData` (node_helper.js lines 71-103):
after a successful request, test `body?.data?.children`, send the guidance
error when the shape is wrong, otherwise filter and map the children; a
thrown exception is caught and reported with the catch-all message.  Both
error paths go through `sendError`, which emits a structured
`REDDIT_POSTS_ERROR` notification carrying the message. -/
def processBody (cfg : Config) (body : Body) : CycleOutput :=
  match body.data with
  | none => .err "REDDIT_POSTS_ERROR" noPostsMessage
  | some d =>
    match d.children with
    | none => .err "REDDIT_POSTS_ERROR" noPostsMessage
    | some children =>
      match (do
        let survivors ← runFilter cfg children
        runMap cfg survivors : Except Unit (List OutputPost)) with
      | .ok posts => .posts posts
      | .error _ => .err "REDDIT_POSTS_ERROR" fetchErrorMessage

/-- Modelled from the spec ( 4.2 Step 1): the four conditions under which
the selector returns none, transcribed condition by condition — preview
absent, OR the thumbnail does not contain the substring http, OR the
preview has no images collection, OR the first image-variant-set has no
source field.  Used to compare the code path against the words of the
spec. -/
def selectNoneCondSpec (preview : Option PreviewData) (thumbnail : String) :
    Bool :=
  preview.isNone ||
  !(containsHttp thumbnail) ||
  (match preview with
   | some p => p.images.isNone
   | none => false) ||
  (match preview with
   | some p =>
     match p.images with
     | some (firstImage :: _) => firstImage.source.isNone
     | _ => false
   | none => false)

/-- The placeholder variant used with `List.getD` in statements. -/
def defaultVariant : ImageVariant := ⟨"", 0, 0⟩

/-- Sample full-resolution source variant. -/
def srcVar : ImageVariant := ⟨"s", 2, 2⟩

/-- Sample small rendition whose dimensions differ from `srcVar`. -/
def lowVar : ImageVariant := ⟨"a", 1, 1⟩

/-- Sample rendition whose dimensions equal those of `srcVar`. -/
def matchVar : ImageVariant := ⟨"b", 2, 2⟩

/-- Sample variant set: one small rendition plus the source. -/
def sampleSet : ImageVariantSet := ⟨some srcVar, [lowVar]⟩

/-- Variant set with a source but an empty resolutions list. -/
def emptyResSet : ImageVariantSet := ⟨some srcVar, []⟩

/-- A well-formed preview built from `sampleSet`. -/
def previewOne : Option PreviewData := some ⟨some [sampleSet]⟩

/-- A preview whose only variant set has an empty resolutions list. -/
def previewEmptyRes : Option PreviewData := some ⟨some [emptyResSet]⟩

/-- A non-image display configuration with no title rules. -/
def cfgList : Config := ⟨"list", "high", [], none⟩

/-- A post with a valid thumbnail whose preview has an empty resolutions
list. -/
def crashPost : RawPost := ⟨"t", 0, "http://a", previewEmptyRes, 0, 0, "r", "u"⟩

/-- A post whose thumbnail is the sentinel "self". -/
def selfPost : RawPost := ⟨"t", 0, "self", none, 0, 0, "r", "u"⟩

/-- The shrinking title rule used against claim C5: replaces "ab" by "x",
with `caseSensitive` unset. -/
def ruleAb : TitleRule := ⟨"ab", "x", none⟩

/-! ## Helper lemmas -/

/-- A quality string occurring in `qualityIndex` has a natural rank of at
most 3. -/
lemma rank_of_mem (q : String) (hq : q ∈ qualityIndex) :
    ∃ r : Nat, r ≤ 3 ∧ jsIndexOfAux qualityIndex q = (r : Int) := by
  simp only [qualityIndex, List.mem_cons, List.not_mem_nil, or_false] at hq
  rcases hq with h | h | h | h <;> subst h
  · exact ⟨0, by omega, by decide⟩
  · exact ⟨1, by omega, by decide⟩
  · exact ⟨2, by omega, by decide⟩
  · exact ⟨3, by omega, by decide⟩

/-- `computeImageIndex` at a natural rank is the natural-number floor
division formula. -/
lemma imageIndexNat (r n : Nat) :
    computeImageIndex (r : Int) n =
      ((if 5 < n then (r * n + 2) / 4 else r * n / 4 : Nat) : Int) := by
  by_cases h : 5 < n
  · simp only [computeImageIndex, if_pos h]
    rw [show ((r : Int) * (n : Int) + 2) = (((r * n + 2 : Nat)) : Int) by push_cast; ring]
    rw [show (4 : Int) = ((4 : Nat) : Int) from rfl]
    rw [← Int.ofNat_fdiv]
  · simp only [computeImageIndex, if_neg h]
    rw [show ((r : Int) * (n : Int)) = (((r * n : Nat)) : Int) by push_cast; ring]
    rw [show (4 : Int) = ((4 : Nat) : Int) from rfl]
    rw [← Int.ofNat_fdiv]

/-- The image index is within bounds for every rank at most 3 and every
non-empty candidate list. -/
lemma imageIndexLt (r n : Nat) (hr : r ≤ 3) (hn : 1 ≤ n) :
    (if 5 < n then (r * n + 2) / 4 else r * n / 4) < n := by
  have hrn : r * n ≤ 3 * n := Nat.mul_le_mul_right n hr
  split
  · rw [Nat.div_lt_iff_lt_mul (by omega)]
    omega
  · rw [Nat.div_lt_iff_lt_mul (by omega)]
    omega

/-- JS indexing at a natural index within bounds hits the element. -/
lemma getQsome (l : List ImageVariant) (i : Nat) (h : i < l.length) :
    jsListGet l (i : Int) = some (l.getD i defaultVariant) := by
  unfold jsListGet
  rw [if_neg (by omega)]
  have h1 : ((i : Int)).toNat = i := rfl
  rw [h1, List.get?_eq_get h, List.getD_eq_getElem l defaultVariant h]
  rfl

/-- When the eligibility data is all present, `skipNonImagePost` returns
`false`. -/
lemma skip_eq_false (preview : Option PreviewData) (thumbnail : String)
    (p : PreviewData) (fs : ImageVariantSet) (tl : List ImageVariantSet)
    (src : ImageVariant)
    (hprev : preview = some p) (himg : p.images = some (fs :: tl))
    (hsrc : fs.source = some src) (hth : containsHttp thumbnail = true) :
    skipNonImagePost preview thumbnail = .ok false := by
  subst hprev
  simp [skipNonImagePost, hth, himg, hsrc]

/-- Inversion: `skipNonImagePost` returns `false` only when the preview,
its images list, the first variant set source, and an http thumbnail are
all present. -/
lemma skip_false_inv (preview : Option PreviewData) (thumbnail : String)
    (h : skipNonImagePost preview thumbnail = .ok false) :
    ∃ p fs tl src, preview = some p ∧ p.images = some (fs :: tl) ∧
      fs.source = some src ∧ containsHttp thumbnail = true := by
  cases preview with
  | none => simp [skipNonImagePost] at h
  | some p =>
    cases hc : containsHttp thumbnail with
    | false => simp [skipNonImagePost, hc] at h
    | true =>
      cases himg : p.images with
      | none => simp [skipNonImagePost, hc, himg] at h
      | some imgs =>
        cases imgs with
        | nil => simp [skipNonImagePost, hc, himg] at h
        | cons fs tl =>
          cases hsrc : fs.source with
          | none => simp [skipNonImagePost, hc, himg, hsrc] at h
          | some src => exact ⟨p, fs, tl, src, rfl, himg, hsrc, rfl⟩

/-- Closed form of `getAllImages` on a non-empty resolutions list. -/
lemma getAllImages_eq_of_getLast (src lastI : ImageVariant)
    (res : List ImageVariant) (hl : res.getLast? = some lastI) :
    getAllImages ⟨some src, res⟩ =
      .ok (if lastI.width = src.width ∧ lastI.height = src.height
           then res else res ++ [src]) := by
  have hd : res.dropLast ++ [lastI] = res := List.dropLast_append_getLast? lastI hl
  simp only [getAllImages, hl]
  by_cases hcond : lastI.width = src.width ∧ lastI.height = src.height
  · rw [if_pos hcond, if_pos hcond, hd]
  · rw [if_neg hcond, if_neg hcond, show [lastI, src] = [lastI] ++ [src] from rfl,
      ← List.append_assoc, hd]

/-- Closed form of `getAllImagesState` on a non-empty resolutions list:
identical to the returned candidate list. -/
lemma getAllImagesState_eq_of_getLast (src lastI : ImageVariant)
    (res : List ImageVariant) (hl : res.getLast? = some lastI) :
    getAllImagesState ⟨some src, res⟩ =
      (if lastI.width = src.width ∧ lastI.height = src.height
       then res else res ++ [src]) := by
  have hd : res.dropLast ++ [lastI] = res := List.dropLast_append_getLast? lastI hl
  simp only [getAllImagesState, hl]
  by_cases hcond : lastI.width = src.width ∧ lastI.height = src.height
  · rw [if_pos hcond, if_pos hcond, hd]
  · rw [if_neg hcond, if_neg hcond, show [lastI, src] = [lastI] ++ [src] from rfl,
      ← List.append_assoc, hd]

/-- A successful `getAllImages` leaves the resolutions array equal to the
returned candidate list. -/
lemma getAllImagesState_of_ok (o : ImageVariantSet) (imgs : List ImageVariant)
    (h : getAllImages o = .ok imgs) : getAllImagesState o = imgs := by
  cases hl : o.resolutions.getLast? with
  | none =>
    cases ho : o.source <;> simp [getAllImages, hl, ho] at h
  | some lastI =>
    cases ho : o.source with
    | none => simp [getAllImages, hl, ho] at h
    | some src =>
      simp only [getAllImages, hl, ho] at h
      simp only [getAllImagesState, hl, ho]
      by_cases hcond : lastI.width = src.width ∧ lastI.height = src.height
      · rw [if_pos hcond] at h
        rw [if_pos hcond]
        exact Except.ok.inj h
      · rw [if_neg hcond] at h
        rw [if_neg hcond]
        exact Except.ok.inj h

/-- The candidate list returned by a successful `getAllImages` ends in a
variant with the dimensions of the source. -/
lemma getAllImages_last_dims (o : ImageVariantSet) (src : ImageVariant)
    (imgs : List ImageVariant) (hs : o.source = some src)
    (h : getAllImages o = .ok imgs) :
    ∃ lastv, imgs.getLast? = some lastv ∧
      lastv.width = src.width ∧ lastv.height = src.height := by
  cases hl : o.resolutions.getLast? with
  | none => simp [getAllImages, hl, hs] at h
  | some lastI =>
    simp only [getAllImages, hl, hs] at h
    by_cases hcond : lastI.width = src.width ∧ lastI.height = src.height
    · rw [if_pos hcond] at h
      refine ⟨lastI, ?_, hcond.1, hcond.2⟩
      rw [← Except.ok.inj h]
      exact List.getLast?_concat _
    · rw [if_neg hcond] at h
      refine ⟨src, ?_, rfl, rfl⟩
      rw [← Except.ok.inj h, show [lastI, src] = [lastI] ++ [src] from rfl,
        ← List.append_assoc]
      exact List.getLast?_concat _

/-- A successful `getAllImages` returns a non-empty list. -/
lemma getAllImages_ok_ne_nil (o : ImageVariantSet) (src : ImageVariant)
    (imgs : List ImageVariant) (hs : o.source = some src)
    (h : getAllImages o = .ok imgs) : imgs ≠ [] := by
  obtain ⟨lastv, hl, _, _⟩ := getAllImages_last_dims o src imgs hs h
  intro hnil
  rw [hnil] at hl
  simp at hl

/-- Full evaluation of `getImageUrl` on an eligible post whose candidate
list was built successfully: the index formula and the returned URL. -/
lemma getImageUrlEval (q : String) (preview : Option PreviewData)
    (thumbnail : String) (p : PreviewData) (fs : ImageVariantSet)
    (tl : List ImageVariantSet) (src : ImageVariant)
    (imgs : List ImageVariant) (r : Nat)
    (hq : jsIndexOfAux qualityIndex q = (r : Int)) (hr : r ≤ 3)
    (hprev : preview = some p) (himg : p.images = some (fs :: tl))
    (hsrc : fs.source = some src) (hth : containsHttp thumbnail = true)
    (hall : getAllImages fs = .ok imgs) :
    (if 5 < imgs.length then (r * imgs.length + 2) / 4
     else r * imgs.length / 4) < imgs.length ∧
    getImageUrl q preview thumbnail =
      .ok (some ((imgs.getD
        (if 5 < imgs.length then (r * imgs.length + 2) / 4
         else r * imgs.length / 4) defaultVariant).url)) := by
  have hskip := skip_eq_false preview thumbnail p fs tl src hprev himg hsrc hth
  have hne : imgs ≠ [] := getAllImages_ok_ne_nil fs src imgs hsrc hall
  have hn : 1 ≤ imgs.length := List.length_pos.mpr hne
  have hlt : (if 5 < imgs.length then (r * imgs.length + 2) / 4
      else r * imgs.length / 4) < imgs.length := imageIndexLt r imgs.length hr hn
  refine ⟨hlt, ?_⟩
  subst hprev
  simp only [getImageUrl, hskip, himg, hall]
  rw [hq, imageIndexNat r imgs.length,
    getQsome imgs _ hlt]

/-- Inversion: a successful non-null `getImageUrl` run exposes the whole
evaluation — the structure of the preview, the candidate list, and the
indexed candidate. -/
lemma getImageUrl_ok_some_inv (q : String) (preview : Option PreviewData)
    (thumbnail : String) (u : String)
    (h : getImageUrl q preview thumbnail = .ok (some u)) :
    ∃ p fs tl src imgs v, preview = some p ∧ p.images = some (fs :: tl) ∧
      fs.source = some src ∧ containsHttp thumbnail = true ∧
      getAllImages fs = .ok imgs ∧
      jsListGet imgs (computeImageIndex (jsIndexOfAux qualityIndex q)
        imgs.length) = some v ∧ u = v.url := by
  cases hskip : skipNonImagePost preview thumbnail with
  | error e => simp [getImageUrl, hskip] at h
  | ok b =>
    cases b with
    | true => simp [getImageUrl, hskip] at h
    | false =>
      obtain ⟨p, fs, tl, src, hprev, himg, hsrc, hth⟩ :=
        skip_false_inv preview thumbnail hskip
      subst hprev
      simp only [getImageUrl, hskip, himg] at h
      cases hall : getAllImages fs with
      | error e => simp [hall] at h
      | ok imgs =>
        simp only [hall] at h
        cases hget : jsListGet imgs
            (computeImageIndex (jsIndexOfAux qualityIndex q) imgs.length) with
        | none => simp [hget] at h
        | some v =>
          simp only [hget] at h
          have hu := Option.some.inj (Except.ok.inj h)
          exact ⟨p, fs, tl, src, imgs, v, rfl, himg, hsrc, hth, hall, hget, hu.symm⟩

/-! ## Claim theorems -/

/-- Claim C1 (confirmed): for every eligible image post (preview present,
thumbnail containing http, first variant set with a source) whose
candidate list `imgs` was built by `getAllImages`, with quality rank `r`
(low=0, mid=1, mid-high=2, high=3, expressed as
`jsIndexOfAux qualityIndex q = r` with `r ≤ 3`) and `n = imgs.length`,
the selected index is `floor((r/4)*n) = r*n/4` when `n ≤ 5` and
`round((r/4)*n) = floor((r*n+2)/4) = (r*n+2)/4` when `n > 5` (in natural
floor division), the index is within bounds, and the URL of the candidate
at that index is returned. -/
theorem getImageUrl_index_formula (q : String) (preview : Option PreviewData)
    (thumbnail : String) (p : PreviewData) (fs : ImageVariantSet)
    (tl : List ImageVariantSet) (src : ImageVariant)
    (imgs : List ImageVariant) (r : Nat)
    (hq : jsIndexOfAux qualityIndex q = (r : Int)) (hr : r ≤ 3)
    (hprev : preview = some p) (himg : p.images = some (fs :: tl))
    (hsrc : fs.source = some src) (hth : containsHttp thumbnail = true)
    (hall : getAllImages fs = .ok imgs) :
    (if 5 < imgs.length then (r * imgs.length + 2) / 4
     else r * imgs.length / 4) < imgs.length ∧
    getImageUrl q preview thumbnail =
      .ok (some ((imgs.getD
        (if 5 < imgs.length then (r * imgs.length + 2) / 4
         else r * imgs.length / 4) defaultVariant).url)) :=
  getImageUrlEval q preview thumbnail p fs tl src imgs r hq hr hprev himg
    hsrc hth hall

/-- Witness for C1: quality "high" (rank 3) on a two-candidate list picks
index 3*2/4 = 1, the source variant, and returns its URL. -/
theorem getImageUrl_index_formula_witness :
    getImageUrl "high" previewOne "http://t" = .ok (some "s") := by
  have h := getImageUrl_index_formula "high" previewOne "http://t"
    ⟨some [sampleSet]⟩ sampleSet [] srcVar [lowVar, srcVar] 3
    (by decide) (by decide) rfl rfl rfl (by decide) (by decide)
  rw [h.2]
  decide

/-- Claim C9 (confirmed): for every valid quality value and every
candidate count `n ≥ 1`, the index computed by `getImageUrl` is
nonnegative and strictly below `n` in both the floor branch and the
rounding branch, so the candidate access never reads past the end of the
list and the `index = n` boundary case is unreachable for valid quality
values. -/
theorem computeImageIndex_in_bounds (q : String) (hq : q ∈ qualityIndex)
    (n : Nat) (hn : 1 ≤ n) :
    0 ≤ computeImageIndex (jsIndexOfAux qualityIndex q) n ∧
    (computeImageIndex (jsIndexOfAux qualityIndex q) n).toNat < n := by
  obtain ⟨r, hr, hrq⟩ := rank_of_mem q hq
  rw [hrq, imageIndexNat r n]
  exact ⟨Int.ofNat_nonneg _, imageIndexLt r n hr hn⟩

/-- Witness for C9: quality "high" on a 7-element candidate list gives a
nonnegative index below 7. -/
theorem computeImageIndex_in_bounds_witness :
    0 ≤ computeImageIndex (jsIndexOfAux qualityIndex "high") 7 ∧
    (computeImageIndex (jsIndexOfAux qualityIndex "high") 7).toNat < 7 :=
  computeImageIndex_in_bounds "high" (by decide) 7 (by decide)

/-- Counterexample to C2 as stated: on a first variant set with a source
variant and ZERO resolutions entries, candidate-list construction does not
yield the resolutions sequence with the source included once (which would
be `[srcVar]`); it throws a TypeError, because `pop()` on the empty array
returns undefined and its `width` is then read. -/
theorem getAllImages_empty_resolutions_throws :
    getAllImages emptyResSet = .error () ∧
    getAllImages emptyResSet ≠ .ok [srcVar] := by
  decide

/-- Claim C2 amended (restricted to at least one resolutions entry): for
every first image-variant-set with a source variant and a NON-EMPTY
resolutions sequence, candidate-list construction yields the resolutions
sequence unchanged when the last entry matches the source's width and
height, and with the source appended at the end (exactly once) when it
does not. -/
theorem getAllImages_candidate_list (src lastI : ImageVariant)
    (res : List ImageVariant) (hl : res.getLast? = some lastI) :
    getAllImages ⟨some src, res⟩ =
      .ok (if lastI.width = src.width ∧ lastI.height = src.height
           then res else res ++ [src]) :=
  getAllImages_eq_of_getLast src lastI res hl

/-- Witness for C2 amended: a one-entry resolutions list whose dimensions
differ from the source gets the source appended. -/
theorem getAllImages_candidate_list_witness :
    getAllImages ⟨some srcVar, [lowVar]⟩ = .ok [lowVar, srcVar] := by
  have h := getAllImages_candidate_list srcVar lowVar [lowVar] rfl
  rw [h]
  decide

/-- Counterexample to C7 as stated: image selection does NOT leave its
input unchanged.  On `sampleSet` (last resolutions entry 1x1, source 2x2)
the `resolutions` array that the caller's PreviewData holds has the source
appended after `getAllImages` runs, because `imageSet` aliases the array
rather than copying it. -/
theorem getAllImagesState_mutates :
    getAllImagesState sampleSet ≠ sampleSet.resolutions := by
  decide

/-- Claim C7 amended: for a first variant set with a source and non-empty
resolutions, the caller's resolutions array is left unchanged by
`getAllImages` exactly when the last entry already matches the source's
dimensions; when it does not match, the source is appended in place to the
caller's array. -/
theorem getAllImagesState_characterization (src lastI : ImageVariant)
    (res : List ImageVariant) (hl : res.getLast? = some lastI) :
    getAllImagesState ⟨some src, res⟩ =
      (if lastI.width = src.width ∧ lastI.height = src.height
       then res else res ++ [src]) :=
  getAllImagesState_eq_of_getLast src lastI res hl

/-- Witness for C7 amended: when the last resolutions entry already has
the source's dimensions, the array is left unchanged. -/
theorem getAllImagesState_characterization_witness :
    getAllImagesState ⟨some srcVar, [matchVar]⟩ = [matchVar] := by
  have h := getAllImagesState_characterization srcVar matchVar [matchVar] rfl
  rw [h]
  decide

/-- Counterexample to C3 as stated: a post on which none of the four
spec conditions holds (preview present, thumbnail contains http, images
collection present and non-empty, first variant set has a source) but for
which no candidate URL is returned: the resolutions list is empty, so the
selection throws a TypeError instead. -/
theorem select_crashes_on_eligible_post :
    selectNoneCondSpec previewEmptyRes "http://t" = false ∧
    getImageUrl "high" previewEmptyRes "http://t" = .error () := by
  decide

/-- Claim C3 amended: `select` returns none exactly when one of the four
spec conditions holds (preview absent, thumbnail without the substring
http, no images collection, or first variant set without a source); and
when none of them holds AND additionally the first variant set's
resolutions list is non-empty and the quality is a valid rank, a candidate
URL is returned.  (Without the extra provisos the call can instead throw:
see the counterexample.) -/
theorem select_none_characterization (q : String)
    (preview : Option PreviewData) (thumbnail : String) :
    (getImageUrl q preview thumbnail = .ok none ↔
      selectNoneCondSpec preview thumbnail = true) ∧
    (∀ (p : PreviewData) (fs : ImageVariantSet) (tl : List ImageVariantSet)
      (src : ImageVariant) (r : Nat),
      preview = some p → p.images = some (fs :: tl) →
      fs.source = some src → fs.resolutions ≠ [] →
      containsHttp thumbnail = true →
      jsIndexOfAux qualityIndex q = (r : Int) → r ≤ 3 →
      ∃ u, getImageUrl q preview thumbnail = .ok (some u)) := by
  constructor
  · cases preview with
    | none => simp [getImageUrl, skipNonImagePost, selectNoneCondSpec]
    | some p =>
      cases hc : containsHttp thumbnail with
      | false => simp [getImageUrl, skipNonImagePost, selectNoneCondSpec, hc]
      | true =>
        cases himg : p.images with
        | none => simp [getImageUrl, skipNonImagePost, selectNoneCondSpec, hc, himg]
        | some imgs =>
          cases imgs with
          | nil => simp [getImageUrl, skipNonImagePost, selectNoneCondSpec, hc, himg]
          | cons fs tl =>
            cases hsrc : fs.source with
            | none =>
              simp [getImageUrl, skipNonImagePost, selectNoneCondSpec, hc, himg, hsrc]
            | some src =>
              have hskip := skip_eq_false (some p) thumbnail p fs tl src rfl himg hsrc hc
              simp only [getImageUrl, hskip, himg, selectNoneCondSpec, hc, hsrc]
              cases hall : getAllImages fs with
              | error e => simp [hall]
              | ok imgs2 =>
                cases hget : jsListGet imgs2
                    (computeImageIndex (jsIndexOfAux qualityIndex q)
                      imgs2.length) with
                | none => simp [hall, hget]
                | some v => simp [hall, hget]
  · intro p fs tl src r hprev himg hsrc hres hth hq hr
    obtain ⟨lastI, hl⟩ : ∃ a, fs.resolutions.getLast? = some a := by
      cases hx : fs.resolutions.getLast? with
      | none => exact absurd (List.getLast?_eq_none_iff.mp hx) hres
      | some a => exact ⟨a, rfl⟩
    obtain ⟨s0, res0⟩ := fs
    have hs0 : s0 = some src := hsrc
    subst hs0
    have hall := getAllImages_eq_of_getLast src lastI res0 hl
    obtain ⟨_, h2⟩ := getImageUrlEval q preview thumbnail p
      ⟨some src, res0⟩ tl src _ r hq hr hprev himg rfl hth hall
    exact ⟨_, h2⟩

/-- Witness for C3: with the preview absent (one of the four conditions),
the selector returns none. -/
theorem select_none_characterization_witness :
    getImageUrl "high" none "self" = .ok none :=
  (select_none_characterization "high" none "self").1.mpr (by decide)

/-- Counterexample to C5 as stated: with the rule ab -> x (which shortens
the title), title "abc" and limit 2, the post-rule title "xc" has exactly
limit characters, so per the claim it would be returned without the
marker; the code instead compares against the PRE-rule length 3 and
returns "xc...". -/
theorem formatTitle_marker_counterexample :
    formatTitle [ruleAb] (some 2) "abc" = "xc..." ∧
    formatTitle [ruleAb] (some 2) "abc" ≠ "xc" := by
  decide

/-- Claim C5 amended: when the limit is not none, `formatTitle` truncates
the post-rule title to at most limit characters, trims surrounding
whitespace, and appends the marker "..." iff the resulting length differs
from the length the title had BEFORE rule application (the function
captures `originalLength` before the replacement loop); the examples
"Hi" with limit 2 -> "Hi" and "Hello World" with limit 5 -> "Hello..."
hold as stated (their rule lists are empty). -/
theorem formatTitle_truncation :
    (∀ (reps : List TitleRule) (l : Nat) (title : String),
      (formatTitle reps (some l) title = truncBase reps l title ∨
       formatTitle reps (some l) title = truncBase reps l title ++ "...") ∧
      (formatTitle reps (some l) title = truncBase reps l title ++ "..." ↔
        (truncBase reps l title).length ≠ title.length)) ∧
    formatTitle [] (some 2) "Hi" = "Hi" ∧
    formatTitle [] (some 5) "Hello World" = "Hello..." := by
  refine ⟨?_, by decide, by decide⟩
  intro reps l title
  have hform : formatTitle reps (some l) title =
      (if (truncBase reps l title).length ≠ title.length
       then truncBase reps l title ++ "..." else truncBase reps l title) := rfl
  have hlen : (truncBase reps l title ++ "...").length =
      (truncBase reps l title).length + 3 := by
    rw [String.length_append]
    rfl
  by_cases hne : (truncBase reps l title).length ≠ title.length
  · rw [hform, if_pos hne]
    exact ⟨Or.inr rfl, iff_of_true rfl hne⟩
  · rw [hform, if_neg hne]
    refine ⟨Or.inl rfl, iff_of_false ?_ hne⟩
    intro hbad
    have hbadLen := congrArg String.length hbad
    rw [hlen] at hbadLen
    omega

/-- Claim C6 (confirmed): the rule loop is a left fold — rule N rewrites
the output of rule N-1 —, a rule with `caseSensitive` unset behaves as a
case-sensitive one, the substitution is global (all occurrences), and the
rule fox -> cat with caseSensitive false maps "The Fox jumps" to
"The cat jumps". -/
theorem title_rules_left_fold :
    (∀ (title : String) (r : TitleRule) (rs : List TitleRule),
      applyRules (r :: rs) title = applyRules rs (applyRule title r)) ∧
    (∀ (title : String) (pat rep : String),
      applyRule title ⟨pat, rep, none⟩ = applyRule title ⟨pat, rep, some true⟩) ∧
    applyRule "The Fox jumps" ⟨"fox", "cat", some false⟩ = "The cat jumps" ∧
    applyRule "fox Fox fox" ⟨"fox", "cat", some false⟩ = "cat cat cat" :=
  ⟨fun _ _ _ => rfl, fun _ _ _ => rfl, by decide, by decide⟩

/-- Claim C8 (confirmed): when the decoded body lacks the expected
post-collection shape (`data` absent, or `data.children` absent), the
cycle emits the structured REDDIT_POSTS_ERROR notification with the
distinct no-posts guidance message, and produces no post output. -/
theorem processBody_malformed_feed (cfg : Config) (body : Body)
    (h : body.data = none ∨ ∃ d, body.data = some d ∧ d.children = none) :
    processBody cfg body = .err "REDDIT_POSTS_ERROR" noPostsMessage := by
  rcases h with h | ⟨d, hd, hc⟩
  · simp [processBody, h]
  · simp [processBody, hd, hc]

/-- Witness for C8: a body with no `data` object. -/
theorem processBody_malformed_feed_witness :
    processBody cfgList ⟨none⟩ = .err "REDDIT_POSTS_ERROR" noPostsMessage :=
  processBody_malformed_feed cfgList ⟨none⟩ (Or.inl rfl)

/-- Claim C10 (confirmed): if a call of `getImageUrl` returned a URL, then
a second call on the post as the first call left it (the `resolutions`
array possibly extended in place by the appended source) returns the SAME
URL, and performs no further mutation — the appended source is now the
last entry, matches its own dimensions, and nothing more is appended, so
the candidate list and its length are unchanged.  Hence the output
record's `src` built by the `.map` pass equals the value the `.filter`
pass decided on. -/
theorem getImageUrl_second_call_agrees (q : String)
    (preview : Option PreviewData) (thumbnail : String) (u : String)
    (h : getImageUrl q preview thumbnail = .ok (some u)) :
    getImageUrl q (previewAfterGet preview thumbnail) thumbnail =
      .ok (some u) ∧
    previewAfterGet (previewAfterGet preview thumbnail) thumbnail =
      previewAfterGet preview thumbnail := by
  obtain ⟨p, fs, tl, src, imgs, v, hprev, himg, hsrc, hth, hall, hget, hu⟩ :=
    getImageUrl_ok_some_inv q preview thumbnail u h
  subst hprev
  subst hu
  have hskip : skipNonImagePost (some p) thumbnail = .ok false :=
    skip_eq_false (some p) thumbnail p fs tl src rfl himg hsrc hth
  have hstate : getAllImagesState fs = imgs := getAllImagesState_of_ok fs imgs hall
  have hafter : previewAfterGet (some p) thumbnail =
      some ⟨some ({ fs with resolutions := imgs } :: tl)⟩ := by
    simp [previewAfterGet, hskip, himg, hstate]
  obtain ⟨lastv, hl, hw, hh⟩ := getAllImages_last_dims fs src imgs hsrc hall
  have hfs2 : ({ fs with resolutions := imgs } : ImageVariantSet) =
      ⟨some src, imgs⟩ := by
    obtain ⟨s0, res0⟩ := fs
    have hs0 : s0 = some src := hsrc
    rw [hs0]
  have hall2 : getAllImages { fs with resolutions := imgs } = .ok imgs := by
    rw [hfs2, getAllImages_eq_of_getLast src lastv imgs hl, if_pos ⟨hw, hh⟩]
  have hsrc2 : ({ fs with resolutions := imgs } : ImageVariantSet).source =
      some src := hsrc
  have hskip2 : skipNonImagePost
      (some ⟨some ({ fs with resolutions := imgs } :: tl)⟩) thumbnail =
      .ok false :=
    skip_eq_false _ thumbnail ⟨some ({ fs with resolutions := imgs } :: tl)⟩
      { fs with resolutions := imgs } tl src rfl rfl hsrc2 hth
  have hstate2 : getAllImagesState { fs with resolutions := imgs } = imgs :=
    getAllImagesState_of_ok _ imgs hall2
  constructor
  · rw [hafter]
    simp only [getImageUrl, hskip2, hall2, hget]
  · rw [hafter]
    simp [previewAfterGet, hskip2, hstate2]

/-- Counterexample to C4 as stated: `crashPost` satisfies both of the
claim's conditions — its thumbnail starts with http and the display type
is not "image" — yet it is not eligible: the unconditional `getImageUrl`
call inside the filter callback throws on its empty resolutions list, so
the callback never returns true (the whole cycle aborts to the catch
handler). -/
theorem filterStep_crash_counterexample :
    startsWithHttp crashPost.thumbnail = true ∧
    cfgList.displayType ≠ "image" ∧
    filterStep cfgList crashPost = .error () := by
  decide

/-- Claim C4 amended: whenever the filter callback completes (the internal
image-selector call does not throw), it keeps the post iff the thumbnail
starts with http AND (displayType is not "image" OR the selector returned
a non-none value); in particular a post with thumbnail "self" is rejected,
and under displayType "image" a post with absent preview is rejected even
when its thumbnail starts with http. -/
theorem filterStep_characterization :
    (∀ (cfg : Config) (post : RawPost) (keep : Bool) (post2 : RawPost),
      filterStep cfg post = .ok (keep, post2) →
      (keep = true ↔ (startsWithHttp post.thumbnail = true ∧
        (cfg.displayType ≠ "image" ∨
         ∃ u, getImageUrl cfg.imageQuality post.preview post.thumbnail =
           .ok (some u))))) ∧
    (∀ (cfg : Config) (post : RawPost), post.thumbnail = "self" →
      filterStep cfg post = .ok (false, post)) ∧
    (∀ (cfg : Config) (post : RawPost), cfg.displayType = "image" →
      post.preview = none → filterStep cfg post = .ok (false, post)) := by
  refine ⟨?_, ?_, ?_⟩
  · intro cfg post keep post2 h
    cases hget : getImageUrl cfg.imageQuality post.preview post.thumbnail with
    | error e => simp [filterStep, hget] at h
    | ok imageSrc =>
      simp only [filterStep, hget] at h
      obtain ⟨hk, -⟩ := Prod.mk.inj (Except.ok.inj h)
      subst hk
      simp [hget, Bool.and_eq_true, Bool.or_eq_true, bne_iff_ne,
        Option.isSome_iff_exists, Except.ok.injEq]
  · intro cfg post hthumb
    have hc : containsHttp post.thumbnail = false := by rw [hthumb]; decide
    have hs : startsWithHttp post.thumbnail = false := by rw [hthumb]; decide
    have hskip : skipNonImagePost post.preview post.thumbnail = .ok true := by
      cases post.preview with
      | none => simp [skipNonImagePost]
      | some p => simp [skipNonImagePost, hc]
    have hget : getImageUrl cfg.imageQuality post.preview post.thumbnail =
        .ok none := by
      simp [getImageUrl, hskip]
    have hafter : previewAfterGet post.preview post.thumbnail = post.preview := by
      simp [previewAfterGet, hskip]
    simp [filterStep, hget, hs, hafter]
  · intro cfg post hd hp
    have hskip : skipNonImagePost post.preview post.thumbnail = .ok true := by
      simp [skipNonImagePost, hp]
    have hget : getImageUrl cfg.imageQuality post.preview post.thumbnail =
        .ok none := by
      simp [getImageUrl, hskip]
    have hafter : previewAfterGet post.preview post.thumbnail = post.preview := by
      simp [previewAfterGet, hskip]
    simp [filterStep, hget, hafter, hd]

/-- Witness for C4 amended: the post with thumbnail "self" is rejected by
the filter callback. -/
theorem filterStep_characterization_witness :
    filterStep cfgList selfPost = .ok (false, selfPost) :=
  filterStep_characterization.2.1 cfgList selfPost rfl

/-- Witness for C10: on the sample preview the first call returns the
small rendition URL and so does the second call on the mutated preview,
which mutates nothing further. -/
theorem getImageUrl_second_call_agrees_witness :
    getImageUrl "low" (previewAfterGet previewOne "http://t") "http://t" =
      .ok (some "a") ∧
    previewAfterGet (previewAfterGet previewOne "http://t") "http://t" =
      previewAfterGet previewOne "http://t" :=
  getImageUrl_second_call_agrees "low" previewOne "http://t" "a" (by decide)
